import Mathlib

/-!
Verification of the Stanford NER client library (`stanfordner/client.py`).

The development shallowly embeds the core of the client:

* the three tagged-text grammars (`SLASHTAGS_EPATTERN`, `XML_EPATTERN`,
  `INLINEXML_EPATTERN`) together with Python's `re.finditer` scanning
  semantics, via a small backtracking matcher over a fixed item language
  (literals, lazy `.+?`, greedy and lazy character classes, backreference);
* the parse functions and the aggregation pipeline of
  `StanfordNER.get_entities` (run-joining with `itertools.groupby`,
  then `__collapse_to_dict` = stable sort by entity type + `groupby`);
* the text normalization and the abstract transport exchange of
  `tag_text` in both client variants, with exceptions as `Except`;
* the constructor validation of `StanfordNERSocket.__init__` and
  `StanfordNERHTTP.__init__`.

Strings are modelled as Lean `String` / `List Char`; Python dicts whose
keys come out of a sort are modelled as association lists with keys in
sorted order.
-/

/-- Python 2 `[A-Z]` character class (ASCII uppercase letters). -/
def isUpperAZ (c : Char) : Bool := decide ('A' ≤ c) && decide (c ≤ 'Z')

/-- Python 2 `\s` character class on `str`: `[ \t\n\r\f\v]`. -/
def isPySpace (c : Char) : Bool :=
  c = ' ' || c = '\t' || c = '\n' || c = '\r' || c = '\x0C' || c = '\x0B'

/-- Python 2 `.` without `re.DOTALL`: any character except newline. -/
def isDot (c : Char) : Bool := c ≠ '\n'

/-- One item of the regular-expression patterns used in `client.py`.
Only the constructs that actually occur in the three patterns are
represented: literal text, the lazy `.+?` (optionally capturing),
greedy `[c]+` and `[c]*` character classes, the lazy `[c]+?` class,
and a backreference `\1`. -/
inductive PatItem where
  | lit (s : List Char)
  | dotLazyPlus (cap : Option Nat)
  | classGreedyPlus (p : Char → Bool) (cap : Option Nat)
  | classGreedyStar (p : Char → Bool)
  | classLazyPlus (p : Char → Bool) (cap : Option Nat)
  | backref (idx : Nat)

/-- Captured groups of one match: group index to captured characters. -/
abbrev Groups := List (Nat × List Char)

/-- Record a capture, if the item is a capturing group. -/
def setGroup (g : Groups) (cap : Option Nat) (v : List Char) : Groups :=
  match cap with
  | none => g
  | some i => (i, v) :: g

/-- Drop a literal prefix from the input, or fail. -/
def dropLit : List Char → List Char → Option (List Char)
  | [], cs => some cs
  | _ :: _, [] => none
  | l :: ls, c :: cs => if c = l then dropLit ls cs else none

/-- First successful result over a list of candidates (the order of the
candidate list realises the lazy/greedy preference of each pattern item). -/
def firstSome (f : α → Option β) : List α → Option β
  | [] => none
  | a :: as =>
    match f a with
    | some b => some b
    | none => firstSome f as

/-- Backtracking matcher: try to match the item sequence at the start of
the input, returning the captured groups and the rest of the input after
the match.  Lazy constructs try the shortest repetition first, greedy
constructs the longest, with full backtracking into the remaining items,
as in Python's `re` engine. -/
def matchItems : List PatItem → List Char → Groups → Option (Groups × List Char)
  | [], cs, g => some (g, cs)
  | .lit s :: rest, cs, g =>
    match dropLit s cs with
    | some cs2 => matchItems rest cs2 g
    | none => none
  | .dotLazyPlus cap :: rest, cs, g =>
    firstSome (fun n =>
        if (cs.take n).all isDot then
          matchItems rest (cs.drop n) (setGroup g cap (cs.take n))
        else none)
      (List.range' 1 cs.length)
  | .classGreedyPlus p cap :: rest, cs, g =>
    firstSome (fun n =>
        if (cs.take n).all p then
          matchItems rest (cs.drop n) (setGroup g cap (cs.take n))
        else none)
      (List.range' 1 (cs.takeWhile p).length).reverse
  | .classGreedyStar p :: rest, cs, g =>
    firstSome (fun n =>
        if (cs.take n).all p then matchItems rest (cs.drop n) g else none)
      (List.range ((cs.takeWhile p).length + 1)).reverse
  | .classLazyPlus p cap :: rest, cs, g =>
    firstSome (fun n =>
        if (cs.take n).all p then
          matchItems rest (cs.drop n) (setGroup g cap (cs.take n))
        else none)
      (List.range' 1 cs.length)
  | .backref i :: rest, cs, g =>
    match g.lookup i with
    | none => none
    | some s =>
      match dropLit s cs with
      | some cs2 => matchItems rest cs2 g
      | none => none

/-- `re.finditer` scanning: repeatedly find the leftmost match, emit its
groups, and continue right after it; on failure at a position, retry one
character further.  The fuel argument is an upper bound on the number of
steps; `findIter` supplies enough fuel for the whole input. -/
def findIterAux (pat : List PatItem) : Nat → List Char → List Groups
  | 0, _ => []
  | fuel + 1, cs =>
    match matchItems pat cs [] with
    | some (g, rest) =>
      if rest.length < cs.length then g :: findIterAux pat fuel rest else [g]
    | none =>
      match cs with
      | [] => []
      | _ :: cs2 => findIterAux pat fuel cs2

/-- All non-overlapping matches of the pattern, left to right. -/
def findIter (pat : List PatItem) (cs : List Char) : List Groups :=
  findIterAux pat (cs.length + 1) cs

/-- The text captured by group `i` of a match (empty if unset). -/
def groupStr (g : Groups) (i : Nat) : String :=
  String.mk ((g.lookup i).getD [])

/-- `SLASHTAGS_EPATTERN = re.compile(r'(.+?)/([A-Z]+)\s*')`. -/
def SLASHTAGS_EPATTERN : List PatItem :=
  [.dotLazyPlus (some 1), .lit ['/'], .classGreedyPlus isUpperAZ (some 2),
   .classGreedyStar isPySpace]

/-- `XML_EPATTERN = re.compile(r'<wi num=".+?" entity="(.+?)">(.+?)</wi>')`. -/
def XML_EPATTERN : List PatItem :=
  [.lit ("<wi num=\"".data), .dotLazyPlus none, .lit ("\" entity=\"".data),
   .dotLazyPlus (some 1), .lit ("\">".data), .dotLazyPlus (some 2),
   .lit ("</wi>".data)]

/-- `INLINEXML_EPATTERN = re.compile(r'<([A-Z]+?)>(.+?)</\1>')`. -/
def INLINEXML_EPATTERN : List PatItem :=
  [.lit ['<'], .classLazyPlus isUpperAZ (some 1), .lit ['>'],
   .dotLazyPlus (some 2), .lit ("</".data), .backref 1, .lit ['>']]

/-- `StanfordNER.__slashTags_parse_entities`: `(match.groups()[::-1] for
match in SLASHTAGS_EPATTERN.finditer(tagged_text))` — the groups are
`(token, TYPE)` and are reversed to `(TYPE, token)`. -/
def slashTags_parse_entities (tagged_text : String) : List (String × String) :=
  (findIter SLASHTAGS_EPATTERN tagged_text.data).map
    (fun g => (groupStr g 2, groupStr g 1))

/-- `StanfordNER.__xml_parse_entities`: `(match.groups() for match in
XML_EPATTERN.finditer(tagged_text))`. -/
def xml_parse_entities (tagged_text : String) : List (String × String) :=
  (findIter XML_EPATTERN tagged_text.data).map
    (fun g => (groupStr g 1, groupStr g 2))

/-- `StanfordNER.__inlineXML_parse_entities`: `(match.groups() for match in
INLINEXML_EPATTERN.finditer(tagged_text))`. -/
def inlineXML_parse_entities (tagged_text : String) : List (String × String) :=
  (findIter INLINEXML_EPATTERN tagged_text.data).map
    (fun g => (groupStr g 1, groupStr g 2))

/-- Contiguous grouping of key/value pairs (`itertools.groupby` with
`key=itemgetter(0)`): helper accumulating the current run. -/
def gatherGo (t : String) (acc : List String) :
    List (String × String) → List (String × List String)
  | [] => [(t, acc.reverse)]
  | (t2, w) :: rest =>
    if t2 = t then gatherGo t (w :: acc) rest
    else (t, acc.reverse) :: gatherGo t2 [w] rest

/-- Contiguous grouping of key/value pairs by key, keeping each run's
values in order (`itertools.groupby(pairs, key=itemgetter(0))`). -/
def gatherRuns : List (String × String) → List (String × List String)
  | [] => []
  | (t, w) :: rest => gatherGo t [w] rest

/-- The run-joining step of `get_entities` for slashTags and xml:
`((etype, " ".join(t[1] for t in tokens)) for (etype, tokens) in
groupby(entities, key=itemgetter(0)))`. -/
def runJoin (pairs : List (String × String)) : List (String × String) :=
  (gatherRuns pairs).map (fun p => (p.1, String.intercalate " " p.2))

/-- Lexicographic comparison of character lists, as Python compares the
string keys in `sorted(pairs, key=itemgetter(0))` (bytewise `<=`). -/
def charListLe : List Char → List Char → Bool
  | [], _ => true
  | _ :: _, [] => false
  | a :: as, b :: bs =>
    if a < b then true else if b < a then false else charListLe as bs

/-- The sort key relation of `sorted(pairs, key=itemgetter(0))`. -/
def keyLe (a b : String × String) : Prop :=
  charListLe a.1.data b.1.data = true

instance : DecidableRel keyLe := fun a b => by unfold keyLe; infer_instance

/-- `StanfordNER.__collapse_to_dict`: `dict((first, map(itemgetter(1),
second)) for (first, second) in groupby(sorted(pairs, key=itemgetter(0)),
key=itemgetter(0)))` — a stable sort by key followed by contiguous
grouping; the dict is represented as an association list with keys in
sorted order. -/
def collapse_to_dict (pairs : List (String × String)) :
    List (String × List String) :=
  gatherRuns (List.insertionSort keyLe pairs)

/-- `StanfordNER.get_entities`, from the raw tagged text on (the part of
the pipeline after `tag_text`), dispatching on `self.oformat`: slashTags
and xml parse then run-join; anything else takes the inlineXML branch. -/
def get_entities_tagged (oformat : String) (tagged_text : String) :
    List (String × List String) :=
  if oformat = "slashTags" then
    collapse_to_dict (runJoin (slashTags_parse_entities tagged_text))
  else if oformat = "xml" then
    collapse_to_dict (runJoin (xml_parse_entities tagged_text))
  else
    collapse_to_dict (inlineXML_parse_entities tagged_text)

/-- The parse step of `get_entities` alone, dispatching on `self.oformat`
exactly as `get_entities` does. -/
def parse_entities (oformat : String) (tagged_text : String) :
    List (String × String) :=
  if oformat = "slashTags" then slashTags_parse_entities tagged_text
  else if oformat = "xml" then xml_parse_entities tagged_text
  else inlineXML_parse_entities tagged_text

/-- Exceptions of the client, as an explicit error type.  The source
raises `InvalidOutputFormat` in the constructors; socket and HTTP errors
stand for the exceptions the underlying transport may raise. -/
inductive PyExc where
  | invalidOutputFormat (msg : String)
  | socketError (msg : String)
  | httpException (msg : String)
  | transportError (cause : PyExc)
deriving DecidableEq, Repr

/-- Modelled from the spec: `TransportError` as described in the spec's
error taxonomy is a wrapper around the underlying transport cause; it is
represented by the `PyExc.transportError` constructor.  The source file
`client.py` itself never raises it. -/
def isTransportError : PyExc → Bool
  | .transportError _ => true
  | _ => false

/-- The five characters stripped by `tag_text` before sending:
`('\f', '\n', '\r', '\t', '\v')`. -/
def strip_chars : List Char := ['\x0C', '\n', '\r', '\t', '\x0B']

/-- Python `text.replace(s, '')` for a single character `s`: remove every
occurrence of that character. -/
def replaceCharEmpty (text : List Char) (s : Char) : List Char :=
  text.filter (fun c => c ≠ s)

/-- The normalization loop of `tag_text` (both variants), followed by
`text += '\n'`: strip each of the five whitespace characters in turn,
then append one newline. -/
def normalizePayload (text : List Char) : List Char :=
  (strip_chars.foldl replaceCharEmpty text) ++ ['\n']

/-- `normalizePayload` on `String`s: the payload sent to the server. -/
def normalizeStr (text : String) : String :=
  String.mk (normalizePayload text.data)

/-- `StanfordNERSocket.tag_text` over an abstract transport exchange
(`tcpip4_socket` + `sendall` + `recv`): normalize, then exchange; any
transport exception propagates unchanged (the source has no handler). -/
def tag_text_socket (exchange : String → Except PyExc String)
    (text : String) : Except PyExc String :=
  exchange (normalizeStr text)

/-- `StanfordNERHTTP.tag_text` over an abstract transport exchange (the
POST request/response): normalize, then exchange; the source catches
`httplib.HTTPException`, prints a message, and re-raises the same
exception (`raise e`), so the error is propagated unchanged. -/
def tag_text_http (exchange : String → Except PyExc String)
    (text : String) : Except PyExc String :=
  match exchange (normalizeStr text) with
  | .ok result => .ok result
  | .error e => .error e

/-- `StanfordNER.get_entities` end to end, over an abstract `tag_text`:
tag the text, then parse and aggregate according to `self.oformat`. -/
def get_entities (tag_text : String → Except PyExc String)
    (oformat : String) (text : String) :
    Except PyExc (List (String × List String)) :=
  match tag_text text with
  | .ok tagged_text => .ok (get_entities_tagged oformat tagged_text)
  | .error e => .error e

/-- Configuration stored by `StanfordNERSocket.__init__`. -/
structure SocketConfig where
  host : String
  port : Nat
  oformat : String
deriving DecidableEq, Repr

/-- Configuration stored by `StanfordNERHTTP.__init__`. -/
structure HTTPConfig where
  host : String
  port : Nat
  location : String
  oformat : String
  classifier : Option String
  spacing : Bool
deriving DecidableEq, Repr

/-- `StanfordNERSocket.__init__`: reject any output format outside
`('slashTags', 'xml', 'inlineXML')` with `InvalidOutputFormat`. -/
def StanfordNERSocket_init (host : String) (port : Nat)
    (output_format : String) : Except PyExc SocketConfig :=
  if output_format ∉ ["slashTags", "xml", "inlineXML"] then
    .error (.invalidOutputFormat
      ("Output format " ++ output_format ++ " is invalid."))
  else
    .ok ⟨host, port, output_format⟩

/-- `StanfordNERHTTP.__init__`: reject any output format outside
`('slashTags', 'xml', 'inlineXML')` with `InvalidOutputFormat`. -/
def StanfordNERHTTP_init (host : String) (port : Nat) (location : String)
    (classifier : Option String) (output_format : String)
    (preserve_spacing : Bool) : Except PyExc HTTPConfig :=
  if output_format ∉ ["slashTags", "xml", "inlineXML"] then
    .error (.invalidOutputFormat
      ("Output format " ++ output_format ++ " is invalid."))
  else
    .ok ⟨host, port, location, output_format, classifier, preserve_spacing⟩

/-- The values stored under key `k` in an association-list dict
(`[]` when the key is absent). -/
def lookupVals (k : String) (m : List (String × List String)) : List String :=
  ((m.find? (fun p => p.1 == k)).map Prod.snd).getD []

theorem charListLe_refl : ∀ l : List Char, charListLe l l = true
  | [] => rfl
  | a :: as => by simp [charListLe, charListLe_refl as]

theorem charListLe_total : ∀ a b : List Char,
    charListLe a b = true ∨ charListLe b a = true
  | [], _ => .inl rfl
  | _ :: _, [] => .inr rfl
  | a :: as, b :: bs => by
    rcases lt_trichotomy a b with h | h | h
    · left; simp [charListLe, h]
    · subst h; simpa [charListLe] using charListLe_total as bs
    · right; simp [charListLe, h]

theorem charListLe_trans : ∀ a b c : List Char, charListLe a b = true →
    charListLe b c = true → charListLe a c = true
  | [], _, _, _, _ => rfl
  | _ :: _, [], _, h1, _ => by simp [charListLe] at h1
  | _ :: _, _ :: _, [], _, h2 => by simp [charListLe] at h2
  | a :: as, b :: bs, c :: cs, h1, h2 => by
    rcases lt_trichotomy a b with hab | hab | hab
    · rcases lt_trichotomy b c with hbc | hbc | hbc
      · simp [charListLe, lt_trans hab hbc]
      · subst hbc; simp [charListLe, hab]
      · simp [charListLe, asymm hbc, hbc] at h2
    · subst hab
      rcases lt_trichotomy a c with hac | hac | hac
      · simp [charListLe, hac]
      · subst hac
        simp only [charListLe, lt_self_iff_false, if_false] at h1 h2 ⊢
        exact charListLe_trans as bs cs h1 h2
      · simp [charListLe, asymm hac, hac] at h2
    · simp [charListLe, asymm hab, hab] at h1

theorem charListLe_antisymm : ∀ a b : List Char, charListLe a b = true →
    charListLe b a = true → a = b
  | [], [], _, _ => rfl
  | [], _ :: _, _, h2 => by simp [charListLe] at h2
  | _ :: _, [], h1, _ => by simp [charListLe] at h1
  | a :: as, b :: bs, h1, h2 => by
    rcases lt_trichotomy a b with h | h | h
    · simp [charListLe, asymm h, h] at h2
    · subst h
      simp only [charListLe, lt_self_iff_false, if_false] at h1 h2
      rw [charListLe_antisymm as bs h1 h2]
    · simp [charListLe, asymm h, h] at h1

instance : IsTotal (String × String) keyLe :=
  ⟨fun a b => charListLe_total a.1.data b.1.data⟩

instance : IsTrans (String × String) keyLe :=
  ⟨fun a b c => charListLe_trans a.1.data b.1.data c.1.data⟩

theorem keyLe_of_eq_keys {a b : String × String} (h : a.1 = b.1) : keyLe a b := by
  unfold keyLe
  rw [h]
  exact charListLe_refl _

theorem string_eq_of_data_eq {s t : String} (h : s.data = t.data) : s = t := by
  cases s
  cases t
  exact congrArg String.mk h

theorem eq_keys_of_keyLe_both {a b : String × String} (h1 : keyLe a b)
    (h2 : keyLe b a) : a.1 = b.1 :=
  string_eq_of_data_eq (charListLe_antisymm a.1.data b.1.data h1 h2)

theorem filter_orderedInsert (k : String) (a : String × String) :
    ∀ l, (List.orderedInsert keyLe a l).filter (fun p => p.1 == k) =
      ((a :: l).filter (fun p => p.1 == k))
  | [] => rfl
  | y :: ys => by
    by_cases hle : keyLe a y
    · simp [List.orderedInsert, hle]
    · have hnot : ¬((a.1 == k) = true ∧ (y.1 == k) = true) := by
        rintro ⟨ha, hy⟩
        rw [beq_iff_eq] at ha hy
        exact hle (keyLe_of_eq_keys (ha.trans hy.symm))
      have IH := filter_orderedInsert k a ys
      simp only [List.orderedInsert, if_neg hle]
      by_cases ha : (a.1 == k) = true <;> by_cases hy : (y.1 == k) = true
      · exact absurd ⟨ha, hy⟩ hnot
      · simp only [List.filter_cons, ha, hy, if_pos, if_neg, Bool.false_eq_true,
          ite_false, ite_true, IH]
      · simp only [List.filter_cons, ha, hy, Bool.false_eq_true, ite_false,
          ite_true, IH]
      · simp only [List.filter_cons, ha, hy, Bool.false_eq_true, ite_false, IH]

theorem filter_insertionSort (k : String) : ∀ pairs,
    (List.insertionSort keyLe pairs).filter (fun p => p.1 == k) =
      pairs.filter (fun p => p.1 == k)
  | [] => rfl
  | a :: l => by
    rw [List.insertionSort, filter_orderedInsert k a (List.insertionSort keyLe l),
      List.filter_cons, List.filter_cons, filter_insertionSort k l]

theorem gatherGo_lookup : ∀ (rest : List (String × String)) (t : String)
    (acc : List String) (k : String),
    List.Sorted keyLe rest →
    (∀ p ∈ rest, charListLe t.data p.1.data = true) →
    lookupVals k (gatherGo t acc rest) =
      if t == k then
        acc.reverse ++ (rest.filter (fun p => p.1 == k)).map Prod.snd
      else (rest.filter (fun p => p.1 == k)).map Prod.snd
  | [], t, acc, k, _, _ => by
    by_cases h : t = k
    · simp [gatherGo, lookupVals, List.find?, h]
    · have hb : (t == k) = false := beq_eq_false_iff_ne.mpr h
      simp [gatherGo, lookupVals, List.find?, h, hb]
  | (t2, w) :: rest', t, acc, k, hsort, hbound => by
    by_cases h2 : t2 = t
    · subst h2
      rw [show gatherGo t2 acc ((t2, w) :: rest') = gatherGo t2 (w :: acc) rest'
        from by simp [gatherGo]]
      have hb' : ∀ p ∈ rest', charListLe t2.data p.1.data = true := fun p hp =>
        List.rel_of_sorted_cons hsort p hp
      rw [gatherGo_lookup rest' t2 (w :: acc) k hsort.of_cons hb']
      by_cases hk : t2 = k
      · simp [hk, List.filter_cons]
      · simp [hk, List.filter_cons]
    · rw [show gatherGo t acc ((t2, w) :: rest') =
          (t, acc.reverse) :: gatherGo t2 [w] rest' from by simp [gatherGo, h2]]
      by_cases htk : t = k
      · have hfilter : ((t2, w) :: rest').filter (fun p => p.1 == k) = [] := by
          rw [List.filter_eq_nil_iff]
          intro p hp
          rcases List.mem_cons.mp hp with rfl | hp'
          · simpa using fun hq => h2 (hq.trans htk.symm)
          · simp only [beq_iff_eq]
            intro hpk
            apply h2
            apply eq_keys_of_keyLe_both (a := (t2, w)) (b := (t, w))
            · have hrel := List.rel_of_sorted_cons hsort p hp'
              unfold keyLe at hrel ⊢
              simp only [htk]
              rwa [hpk] at hrel
            · exact hbound (t2, w) (List.mem_cons_self _ _)
        simp [lookupVals, List.find?, htk, hfilter]
      · have hb : (t == k) = false := beq_eq_false_iff_ne.mpr htk
        rw [show lookupVals k ((t, acc.reverse) :: gatherGo t2 [w] rest') =
            lookupVals k (gatherGo t2 [w] rest') from by
          simp [lookupVals, List.find?, hb]]
        have hb' : ∀ p ∈ rest', charListLe t2.data p.1.data = true := fun p hp =>
          List.rel_of_sorted_cons hsort p hp
        rw [gatherGo_lookup rest' t2 [w] k hsort.of_cons hb']
        by_cases hk : t2 = k
        · simp [htk, hk, List.filter_cons]
        · simp [htk, hk, List.filter_cons]

theorem collapse_lookup (pairs : List (String × String)) (k : String) :
    lookupVals k (collapse_to_dict pairs) =
      (pairs.filter (fun p => p.1 == k)).map Prod.snd := by
  unfold collapse_to_dict
  have hs := List.sorted_insertionSort keyLe pairs
  have hf := filter_insertionSort k pairs
  rcases hsort : List.insertionSort keyLe pairs with _ | ⟨⟨t, w⟩, rest⟩
  · rw [hsort] at hf
    simp [gatherRuns, lookupVals, ← hf]
  · rw [hsort] at hs hf
    rw [show gatherRuns ((t, w) :: rest) = gatherGo t [w] rest from rfl]
    rw [gatherGo_lookup rest t [w] k hs.of_cons
      (fun p hp => List.rel_of_sorted_cons hs p hp)]
    rw [← hf, List.filter_cons]
    by_cases hk : t = k
    · simp [hk]
    · have hb : (t == k) = false := beq_eq_false_iff_ne.mpr hk
      simp [hb]

theorem gatherGo_run : ∀ (ws : List String) (t : String) (acc : List String)
    (l₂ : List (String × String)),
    l₂.head?.all (fun p => !(p.1 == t)) = true →
    gatherGo t acc (ws.map (fun w => (t, w)) ++ l₂) =
      (t, acc.reverse ++ ws) :: gatherRuns l₂
  | [], t, acc, l₂, hhd => by
    rcases l₂ with _ | ⟨⟨t2, w⟩, rest⟩
    · simp [gatherGo, gatherRuns]
    · have h2 : ¬t2 = t := by simpa using hhd
      simp [gatherGo, gatherRuns, h2]
  | w :: ws', t, acc, l₂, hhd => by
    rw [show (w :: ws').map (fun w => (t, w)) ++ l₂ =
        (t, w) :: (ws'.map (fun w => (t, w)) ++ l₂) from by simp]
    rw [show gatherGo t acc ((t, w) :: (ws'.map (fun w => (t, w)) ++ l₂)) =
        gatherGo t (w :: acc) (ws'.map (fun w => (t, w)) ++ l₂) from by
      simp [gatherGo]]
    rw [gatherGo_run ws' t (w :: acc) l₂ hhd]
    simp

theorem runJoin_run (ws : List String) (t : String)
    (l₂ : List (String × String)) (hne : ws ≠ [])
    (hhd : l₂.head?.all (fun p => !(p.1 == t)) = true) :
    runJoin (ws.map (fun w => (t, w)) ++ l₂) =
      (t, String.intercalate " " ws) :: runJoin l₂ := by
  rcases ws with _ | ⟨w, ws'⟩
  · exact absurd rfl hne
  · unfold runJoin
    rw [show (w :: ws').map (fun w => (t, w)) ++ l₂ =
        (t, w) :: (ws'.map (fun w => (t, w)) ++ l₂) from by simp]
    rw [show gatherRuns ((t, w) :: (ws'.map (fun w => (t, w)) ++ l₂)) =
        gatherGo t [w] (ws'.map (fun w => (t, w)) ++ l₂) from rfl]
    rw [gatherGo_run ws' t [w] l₂ hhd]
    simp

theorem mem_foldl_replace : ∀ (l : List Char) (t : List Char) (x : Char),
    x ∈ l.foldl replaceCharEmpty t → x ∈ t ∧ x ∉ l
  | [], _, x, h => ⟨h, List.not_mem_nil x⟩
  | a :: l', t, x, h => by
    rcases mem_foldl_replace l' (replaceCharEmpty t a) x h with ⟨hmem, hnot⟩
    rcases List.mem_filter.mp hmem with ⟨hx, hxa⟩
    refine ⟨hx, fun hmm => ?_⟩
    rcases List.mem_cons.mp hmm with rfl | h'
    · simp at hxa
    · exact hnot h'

/-- Claim C1: for every string not in `{'slashTags', 'xml', 'inlineXML'}`
passed as `output_format`, constructing either client variant raises
`InvalidOutputFormat` at construction time, and constructing with any of
the three supported values never raises (it returns the configuration). -/
theorem c1_invalid_output_format_at_construction
    (host : String) (port : Nat) (location : String)
    (classifier : Option String) (spacing : Bool) (fmt : String) :
    (fmt ∉ ["slashTags", "xml", "inlineXML"] →
      StanfordNERSocket_init host port fmt =
        .error (.invalidOutputFormat
          ("Output format " ++ fmt ++ " is invalid.")) ∧
      StanfordNERHTTP_init host port location classifier fmt spacing =
        .error (.invalidOutputFormat
          ("Output format " ++ fmt ++ " is invalid."))) ∧
    (fmt ∈ ["slashTags", "xml", "inlineXML"] →
      StanfordNERSocket_init host port fmt = .ok ⟨host, port, fmt⟩ ∧
      StanfordNERHTTP_init host port location classifier fmt spacing =
        .ok ⟨host, port, location, fmt, classifier, spacing⟩) := by
  constructor
  · intro h
    refine ⟨?_, ?_⟩
    · unfold StanfordNERSocket_init
      rw [if_pos h]
    · unfold StanfordNERHTTP_init
      rw [if_pos h]
  · intro h
    have h' : ¬fmt ∉ ["slashTags", "xml", "inlineXML"] := not_not_intro h
    refine ⟨?_, ?_⟩
    · unfold StanfordNERSocket_init
      rw [if_neg h']
    · unfold StanfordNERHTTP_init
      rw [if_neg h']

/-- Witness for C1: the format `"json"` is rejected with
`InvalidOutputFormat`, the supported format `"xml"` is accepted. -/
theorem c1_witness :
    StanfordNERSocket_init "localhost" 1234 "json" =
      .error (.invalidOutputFormat
        ("Output format " ++ "json" ++ " is invalid.")) ∧
    StanfordNERSocket_init "localhost" 1234 "xml" =
      .ok ⟨"localhost", 1234, "xml"⟩ :=
  ⟨((c1_invalid_output_format_at_construction "localhost" 1234
      "/stanford-ner/ner" none true "json").1 (by decide)).1,
   ((c1_invalid_output_format_at_construction "localhost" 1234
      "/stanford-ner/ner" none true "xml").2 (by decide)).1⟩

/-- Claim C2: for every input string, the normalization applied by
`tag_text` (identical in both variants) removes every occurrence of
form-feed, newline, carriage-return, tab and vertical-tab, and the
payload sent to the transport is the stripped text with exactly one
newline appended: the payload decomposes as `s ++ ['\n']` where `s`
contains none of the five characters, and the payload counts exactly
one `'\n'` overall. -/
theorem c2_normalization_strips_and_appends_newline (text : String) :
    ∃ s : List Char, (normalizeStr text).data = s ++ ['\n'] ∧
      normalizePayload text.data = s ++ ['\n'] ∧
      (∀ c ∈ strip_chars, c ∉ s) ∧
      (normalizePayload text.data).count '\n' = 1 := by
  have hs : ∀ c ∈ strip_chars, c ∉ strip_chars.foldl replaceCharEmpty text.data :=
    fun c hc hmem => (mem_foldl_replace strip_chars text.data c hmem).2 hc
  refine ⟨strip_chars.foldl replaceCharEmpty text.data, rfl, rfl, hs, ?_⟩
  unfold normalizePayload
  rw [List.count_append, List.count_eq_zero.mpr (hs '\n' (by decide))]
  rfl

/-- Claim C3: with output format slashTags, the parse-then-aggregate
pipeline of `get_entities` on the raw tagged text
`"New/LOCATION York/LOCATION is/O big/O"` yields exactly the entity map
`{"LOCATION": ["New York"], "O": ["is big"]}` (as an association list
with keys in sorted order). -/
theorem c3_slashtags_example_extraction :
    get_entities_tagged "slashTags" "New/LOCATION York/LOCATION is/O big/O" =
      [("LOCATION", ["New York"]), ("O", ["is big"])] := by decide

/-- Claim C4: with output format xml, the parse-then-aggregate pipeline
on the raw tagged text
`<wi num="1" entity="PERSON">John</wi> <wi num="2" entity="PERSON">Smith</wi>
<wi num="3" entity="O">lives</wi>` yields exactly the entity map
`{"PERSON": ["John Smith"], "O": ["lives"]}` (as an association list with
keys in sorted order); the `num` attribute appears nowhere in the result. -/
theorem c4_xml_example_extraction :
    get_entities_tagged "xml"
      "<wi num=\"1\" entity=\"PERSON\">John</wi> <wi num=\"2\" entity=\"PERSON\">Smith</wi> <wi num=\"3\" entity=\"O\">lives</wi>" =
      [("O", ["lives"]), ("PERSON", ["John Smith"])] := by decide

/-- Claim C5: with output format inlineXML, the parse-then-aggregate
pipeline on `<PERSON>John Smith</PERSON> lives in <LOCATION>Paris</LOCATION>`
yields exactly the entity map
`{"PERSON": ["John Smith"], "LOCATION": ["Paris"]}` (association list with
keys in sorted order); the untagged text "lives in" appears nowhere, and
in particular there is no `"O"` key. -/
theorem c5_inlinexml_example_extraction :
    get_entities_tagged "inlineXML"
      "<PERSON>John Smith</PERSON> lives in <LOCATION>Paris</LOCATION>" =
      [("LOCATION", ["Paris"]), ("PERSON", ["John Smith"])] ∧
    (get_entities_tagged "inlineXML"
      "<PERSON>John Smith</PERSON> lives in <LOCATION>Paris</LOCATION>").find?
        (fun p => p.1 == "O") = none := by decide

/-- Claim C6: for every raw tagged text and each output format, the
parse-then-aggregate pipeline is a total function (it never raises), and
when the format's grammar matches zero tokens — the parse step yields the
empty sequence — the resulting entity map is empty rather than an error. -/
theorem c6_empty_parse_empty_map (oformat tagged_text : String)
    (h : parse_entities oformat tagged_text = []) :
    get_entities_tagged oformat tagged_text = [] := by
  unfold parse_entities at h
  unfold get_entities_tagged
  by_cases h1 : oformat = "slashTags"
  · rw [if_pos h1] at h
    rw [if_pos h1, h]
    decide
  · rw [if_neg h1] at h
    rw [if_neg h1]
    by_cases h2 : oformat = "xml"
    · rw [if_pos h2] at h
      rw [if_pos h2, h]
      decide
    · rw [if_neg h2] at h
      rw [if_neg h2, h]
      decide

/-- Witness for C6: text with no slashTags tokens parses to the empty
sequence and aggregates to the empty map. -/
theorem c6_witness :
    parse_entities "slashTags" "no entities in here" = [] ∧
    get_entities_tagged "slashTags" "no entities in here" = [] :=
  ⟨by decide, c6_empty_parse_empty_map "slashTags" "no entities in here" (by decide)⟩

/-- Claim C7: the parse-then-aggregate pipeline is deterministic — two
`get_entities` calls whose `tag_text` step returns the same tagged text
produce the same (successful) entity map, namely the one computed by the
pure pipeline on that tagged text. -/
theorem c7_deterministic_extraction
    (tag1 tag2 : String → Except PyExc String) (oformat text1 text2 r : String)
    (h1 : tag1 text1 = .ok r) (h2 : tag2 text2 = .ok r) :
    get_entities tag1 oformat text1 = .ok (get_entities_tagged oformat r) ∧
    get_entities tag2 oformat text2 = .ok (get_entities_tagged oformat r) ∧
    get_entities tag1 oformat text1 = get_entities tag2 oformat text2 := by
  unfold get_entities
  rw [h1, h2]
  exact ⟨rfl, rfl, rfl⟩

/-- Witness for C7: a transport that always returns `"Paris/LOCATION"`
yields identical entity maps for two different input texts. -/
theorem c7_witness :
    get_entities (fun _ => .ok "Paris/LOCATION") "slashTags" "input one" =
      .ok (get_entities_tagged "slashTags" "Paris/LOCATION") ∧
    get_entities (fun _ => .ok "Paris/LOCATION") "slashTags" "input two" =
      .ok (get_entities_tagged "slashTags" "Paris/LOCATION") ∧
    get_entities (fun _ => .ok "Paris/LOCATION") "slashTags" "input one" =
      get_entities (fun _ => .ok "Paris/LOCATION") "slashTags" "input two" :=
  c7_deterministic_extraction (fun _ => .ok "Paris/LOCATION")
    (fun _ => .ok "Paris/LOCATION") "slashTags" "input one" "input two"
    "Paris/LOCATION" rfl rfl

/-- Claim C8: for the slashTags and xml formats the pipeline first
run-joins the parsed pairs (maximal contiguous runs of equal entity type,
in original order, joined by a single space — a run followed by a
different type closes, so two same-type runs separated by another type
stay separate), and for all formats `__collapse_to_dict` is stable: the
values under each key of the resulting map are exactly the second
components of the pairs with that key, in original order. -/
theorem c8_run_grouping_and_stable_collapse (t : String) (ws : List String)
    (l₂ pairs : List (String × String)) (k tagged : String) :
    (get_entities_tagged "slashTags" tagged =
      collapse_to_dict (runJoin (slashTags_parse_entities tagged))) ∧
    (get_entities_tagged "xml" tagged =
      collapse_to_dict (runJoin (xml_parse_entities tagged))) ∧
    (ws ≠ [] → l₂.head?.all (fun p => !(p.1 == t)) = true →
      runJoin (ws.map (fun w => (t, w)) ++ l₂) =
        (t, String.intercalate " " ws) :: runJoin l₂) ∧
    lookupVals k (collapse_to_dict pairs) =
      (pairs.filter (fun p => p.1 == k)).map Prod.snd :=
  ⟨rfl, rfl, fun h1 h2 => runJoin_run ws t l₂ h1 h2, collapse_lookup pairs k⟩

/-- Witness for C8: the run `New York` of type `TYPE` is joined with one
space and closed by the following `O` pair, and the collapsed dict keeps
the two `B` values in their original order past the interleaved `A`. -/
theorem c8_witness :
    runJoin [("TYPE", "New"), ("TYPE", "York"), ("O", "is")] =
      [("TYPE", "New York"), ("O", "is")] ∧
    lookupVals "B" (collapse_to_dict [("B", "b1"), ("A", "a1"), ("B", "b2")]) =
      ["b1", "b2"] := by
  have h := c8_run_grouping_and_stable_collapse "TYPE" ["New", "York"]
    [("O", "is")] [("B", "b1"), ("A", "a1"), ("B", "b2")] "B" ""
  have h3 := h.2.2.1 (by decide) (by decide)
  have h4 := h.2.2.2
  refine ⟨?_, ?_⟩
  · rw [show ([("TYPE", "New"), ("TYPE", "York"), ("O", "is")] :
        List (String × String)) =
      ["New", "York"].map (fun w => ("TYPE", w)) ++ [("O", "is")] from rfl, h3]
    decide
  · rw [h4]
    decide

/-- Counterexample for claim C9: the HTTP `tag_text` re-raises the caught
`httplib.HTTPException` itself (`raise e`) — the error that surfaces is
the raw underlying exception, not a `TransportError` wrapper. -/
theorem c9_counterexample :
    tag_text_http (fun _ => .error (.httpException "Connection refused"))
      "John lives in Paris" = .error (.httpException "Connection refused") ∧
    ¬∃ cause, tag_text_http
        (fun _ => .error (.httpException "Connection refused"))
        "John lives in Paris" = .error (.transportError cause) := by
  refine ⟨rfl, ?_⟩
  rintro ⟨cause, hc⟩
  rw [show tag_text_http (fun _ => .error (.httpException "Connection refused"))
      "John lives in Paris" = .error (.httpException "Connection refused")
    from rfl] at hc
  simp at hc

/-- Claim C9 (amended): whenever the transport exchange fails, `tag_text`
(both variants) and `get_entities` fail by propagating the underlying
exception unchanged — the socket variant has no handler and the HTTP
variant re-raises the caught exception — and never silently return empty
output (the result is an error, never `.ok`). -/
theorem c9_raw_error_propagation
    (exchange : String → Except PyExc String) (text oformat : String)
    (e : PyExc) (h : exchange (normalizeStr text) = .error e) :
    tag_text_socket exchange text = .error e ∧
    tag_text_http exchange text = .error e ∧
    get_entities (tag_text_socket exchange) oformat text = .error e ∧
    get_entities (tag_text_http exchange) oformat text = .error e ∧
    ∀ m, get_entities (tag_text_http exchange) oformat text ≠ .ok m := by
  unfold get_entities tag_text_socket tag_text_http
  rw [h]
  exact ⟨rfl, rfl, rfl, rfl, fun m hm => Except.noConfusion hm⟩

/-- Witness for C9 (amended): a transport that fails with a socket error
surfaces that very error from `tag_text`. -/
theorem c9_witness :
    tag_text_socket (fun _ => .error (.socketError "Connection refused"))
      "some text" = .error (.socketError "Connection refused") :=
  (c9_raw_error_propagation
    (fun _ => .error (.socketError "Connection refused")) "some text"
    "inlineXML" (.socketError "Connection refused") rfl).1

/-- Claim C10: for the slashTags format, untagged text immediately
preceding a tagged token is not dropped but absorbed into that token:
on `"hello world/TYPE"` the parser yields exactly the single pair
`("TYPE", "hello world")`. -/
theorem c10_slashtags_absorbs_preceding_text :
    slashTags_parse_entities "hello world/TYPE" = [("TYPE", "hello world")] := by
  decide
